import Mathlib

set_option maxHeartbeats 1000000

/-!
A verification development for the ONNX export utilities in
`torch/onnx/utils.py`.  The Python module is shallowly embedded: pure helper
functions become Lean functions, the process-global mutable state of `_export`
becomes explicit state passing, Python exceptions become an `Except` monad over
an explicit exception-kind type, and the mutable TorchScript graph objects
become immutable graph values transformed functionally.  External collaborators
(the tracer, the C++ graph passes, the operator registry service) appear either
as explicit parameters or as definitions whose doc comment starts with
`Modelled from the spec:`.
-/

namespace TorchOnnxUtils

/-- The `torch.onnx.OperatorExportTypes` enum, as consumed by `utils.py`. -/
inductive OperatorExportTypes where
  | ONNX
  | ONNX_ATEN
  | ONNX_ATEN_FALLBACK
  | ONNX_FALLTHROUGH
  deriving DecidableEq

/-- The `torch.onnx.TrainingMode` enum, as consumed by `utils.py`. -/
inductive TrainingMode where
  | EVAL
  | PRESERVE
  | TRAINING
  deriving DecidableEq

/-- Kinds of Python exceptions that the embedded code raises or catches.
`unsupportedOperator` models `torch.onnx.symbolic_registry.UnsupportedOperatorError`,
which subclasses `RuntimeError` (spec section 7: the unsupported-operator error is
swallowed exactly when fallthrough-diagnostic mode is active, like a runtime error). -/
inductive PyExc where
  | runtimeError
  | unsupportedOperator (domain op_name : String) (opset_version : Int)
  | typeError
  | valueError
  | assertionError
  deriving DecidableEq

/-- Whether an exception is caught by `except RuntimeError` (the class itself or
its subclass `UnsupportedOperatorError`). -/
def PyExc.isRuntimeErrorClass : PyExc → Bool
  | .runtimeError => true
  | .unsupportedOperator _ _ _ => true
  | _ => false

/-- Bool-valued success test for `Except`. -/
def isOkE {ε α : Type} : Except ε α → Bool
  | .ok _ => true
  | .error _ => false

deriving instance DecidableEq for Except

/-! ## Configuration resolution helpers (`_decide_*`, utils.py lines 278-331) -/

/-- Embedding of `_decide_keep_init_as_input` (utils.py lines 289-315).
Returns the resolved value together with a flag recording whether the
opset-below-9 warning was emitted.  For `opset_version < 9` the function
returns `True` unconditionally, warning exactly when the caller passed
`False`; otherwise `None` resolves to `False` for export type `ONNX` and to
`True` for every other export type, and an explicit request is respected. -/
def _decide_keep_init_as_input (keep_init : Option Bool)
    (operator_export_type : OperatorExportTypes) (opset_version : Int) :
    Bool × Bool :=
  if opset_version < 9 then
    (true, decide (keep_init = some false))
  else
    let val0 := match keep_init with
      | none => true
      | some b => b
    let val :=
      if keep_init = none ∧ operator_export_type = OperatorExportTypes.ONNX then false
      else val0
    (val, false)

/-- Embedding of `_resolve_args_by_export_type` (utils.py lines 278-286).
Returns the resolved value and whether the ignored-argument warning fired:
when the export type is not `ONNX` the argument is forced to `False`, with a
warning exactly when the caller passed `True`. -/
def _resolve_args_by_export_type (arg_value : Bool)
    (operator_export_type : OperatorExportTypes) : Bool × Bool :=
  if operator_export_type ≠ OperatorExportTypes.ONNX then (false, arg_value)
  else (arg_value, false)

/-- Embedding of `_decide_constant_folding` (utils.py lines 322-331).
Result components: resolved value, the `_resolve_args_by_export_type` warning,
and the training-mode advisory warning.  Note the source only warns when
folding is requested with a non-`EVAL` training mode; it does not change the
value on that path. -/
def _decide_constant_folding (do_constant_folding : Bool)
    (operator_export_type : OperatorExportTypes) (training : Option TrainingMode) :
    Bool × Bool × Bool :=
  let r := _resolve_args_by_export_type do_constant_folding operator_export_type
  let trainWarn :=
    r.1 && (decide (training ≠ none) && decide (training ≠ some TrainingMode.EVAL))
  (r.1, r.2, trainWarn)

/-! ## The export orchestrator state machine (`_export`, utils.py lines 654-786) -/

/-- The process-global mutable state read and written by `_export`: the module
flag `__IN_ONNX_EXPORT` (utils.py line 26) and the trace-module map
`torch.jit._trace._trace_module_map` written by `_setup_trace_module_map`
(line 630) and cleared by `_reset_trace_module_map` (line 652). -/
structure GState where
  inExport : Bool
  traceModuleMap : Option (List String)
  deriving DecidableEq

/-- The aspects of the model argument that `_export` consults before entering
its guarded region: whether it is a `torch.nn.DataParallel` wrapper (line 663)
and the type names of its submodules (consumed by `_setup_trace_module_map`). -/
structure Model where
  isDataParallel : Bool
  moduleTypenames : List String
  deriving DecidableEq

/-- The `export_modules_as_functions` argument: either a bool, or a set whose
elements are each a type (`true`) or a non-type value (`false`), in which case
`_find_typename` raises `RuntimeError` (utils.py lines 641-643). -/
inductive EMAFArg where
  | boolArg (b : Bool)
  | setArg (elems : List Bool)
  deriving DecidableEq

/-- Embedding of `_setup_trace_module_map` (utils.py lines 627-649).  For a
truthy argument the inner `__setup_trace_module_map` first installs the global
trace-module map; for the set form, `_find_typename` is evaluated afterwards
and raises `RuntimeError` on a non-type element, so the map is already set when
the error propagates. -/
def _setup_trace_module_map (st : GState) (model : Model) (emaf : EMAFArg) :
    Except PyExc (Option (List String)) × GState :=
  match emaf with
  | .boolArg true =>
      (.ok (some model.moduleTypenames),
       { st with traceModuleMap := some model.moduleTypenames })
  | .boolArg false => (.ok none, st)
  | .setArg elems =>
      if elems.length > 0 then
        let st1 : GState := { st with traceModuleMap := some model.moduleTypenames }
        if elems.all (fun e => e) then (.ok (some model.moduleTypenames), st1)
        else (.error .runtimeError, st1)
      else (.ok none, st)

/-- Embedding of the state-relevant skeleton of `_export` (utils.py lines
654-786).  `body` abstracts the entire guarded work inside the
`try ... finally` (configuration resolution through serialization and the
checker); whatever it does, the `finally` block clears `__IN_ONNX_EXPORT` and
resets the trace-module map.  Before the guard, `_setup_trace_module_map` runs
(line 661), then the `DataParallel` rejection (lines 663-667), then
`assert __IN_ONNX_EXPORT is False` (line 669); an error on any of those paths
propagates without touching the flag and without the cleanup running. -/
def _export (st : GState) (model : Model) (emaf : EMAFArg)
    (body : Except PyExc Unit) : Except PyExc Unit × GState :=
  match _setup_trace_module_map st model emaf with
  | (.error e, st1) => (.error e, st1)
  | (.ok _, st1) =>
    if model.isDataParallel then (.error .valueError, st1)
    else if st1.inExport then (.error .assertionError, st1)
    else
      let st3 : GState := { st1 with inExport := false, traceModuleMap := none }
      (body, st3)

/-! ## Per-node translation dispatch (`_run_symbolic_function`, utils.py lines 999-1087) -/

/-- Modelled from the spec: the operator registry
(`torch.onnx.symbolic_registry`, not under `src/`) is a lookup service keyed by
(operator name, domain namespace, opset version); translation functions are
abstracted as numeric identifiers.  The registry value passed to the dispatch
functions below is its state at lookup time, after the external registration
side effects in `_run_symbolic_function` (the `register_version` call and the
Caffe2 quantized-op registration, lines 1029-1036). -/
def Registry : Type := String → String → Int → Option Nat

/-- The registry membership test `sym_registry.is_registered_op`. -/
def is_registered_op (r : Registry) (op_name domain : String)
    (opset_version : Int) : Bool :=
  (r op_name domain opset_version).isSome

/-- Embedding of `_find_symbolic_in_registry` (utils.py lines 999-1005).  On a
missing entry it returns `None` only in fallthrough mode; otherwise
`get_registered_op` raises (modelled from the spec error taxonomy as the
unsupported-operator error). -/
def _find_symbolic_in_registry (r : Registry) (domain op_name : String)
    (opset_version : Int) (operator_export_type : OperatorExportTypes) :
    Except PyExc (Option Nat) :=
  if is_registered_op r op_name domain opset_version = false then
    if operator_export_type = OperatorExportTypes.ONNX_FALLTHROUGH then Except.ok none
    else Except.error (PyExc.unsupportedOperator domain op_name opset_version)
  else Except.ok (r op_name domain opset_version)

/-- Embedding of `_should_aten_fallback` (utils.py lines 1008-1013). -/
def _should_aten_fallback (r : Registry) (op_name : String) (opset_version : Int)
    (operator_export_type : OperatorExportTypes) : Bool :=
  let is_exportable_aten_op := is_registered_op r op_name "" opset_version
  let is_onnx_aten_export :=
    decide (operator_export_type = OperatorExportTypes.ONNX_ATEN)
  let is_aten_fallback_export :=
    decide (operator_export_type = OperatorExportTypes.ONNX_ATEN_FALLBACK)
  is_onnx_aten_export || (!is_exportable_aten_op && is_aten_fallback_export)

/-- Leftmost, non-overlapping split of a character list on the two-character
separator `::` — the semantics of Python `str.split("::")`, implemented
structurally over the character list. -/
def splitOnDoubleColon : List Char → List (List Char)
  | [] => [[]]
  | ':' :: ':' :: rest => [] :: splitOnDoubleColon rest
  | c :: rest =>
    match splitOnDoubleColon rest with
    | [] => [[c]]
    | h :: t => (c :: h) :: t

/-- The kind-string preprocessing in `_run_symbolic_function` (utils.py lines
1040-1044): strip a trailing in-place marker, then split on `::`; Python
tuple unpacking of `split` raises `ValueError` unless there are exactly two
parts. -/
def parse_ns_op_name (kind : String) : Except PyExc (String × String) :=
  let kd := if kind.data.getLast? = some '_' then kind.data.dropLast else kind.data
  match splitOnDoubleColon kd with
  | [ns, op_name] => Except.ok (String.mk ns, String.mk op_name)
  | _ => Except.error PyExc.valueError

/-- The domain remapping in `_run_symbolic_function` (utils.py lines 1046-1053). -/
def compute_domain (ns : String) (is_caffe2_aten_fallback : Bool) : String :=
  if ns = "aten" then ""
  else if ns = "quantized" then (if is_caffe2_aten_fallback then "caffe2" else "")
  else ns

/-- The translation path chosen by the dispatch in `_run_symbolic_function`. -/
inductive Branch where
  | registered (fn : Nat)
  | onnxClone
  | atenFallback
  deriving DecidableEq

/-- The branch selection of `_run_symbolic_function` (utils.py lines
1040-1078): registered translation first, then the native `onnx` domain clone,
then the ATen fallback, else the unsupported-operator error.  The
`Except.ok none` arm of the registry lookup is unreachable here because it is
guarded by `is_registered_op`; calling a `None` symbolic would raise
`TypeError`. -/
def dispatch_branch (r : Registry) (operator_export_type : OperatorExportTypes)
    (caffe2_build : Bool) (opset_version : Int) (kind : String) :
    Except PyExc Branch :=
  match parse_ns_op_name kind with
  | Except.error e => Except.error e
  | Except.ok (ns, op_name) =>
    let is_caffe2_aten_fallback :=
      decide (operator_export_type = OperatorExportTypes.ONNX_ATEN_FALLBACK) &&
        caffe2_build
    let domain := compute_domain ns is_caffe2_aten_fallback
    if is_registered_op r op_name domain opset_version then
      match _find_symbolic_in_registry r domain op_name opset_version
          operator_export_type with
      | Except.error e => Except.error e
      | Except.ok none => Except.error PyExc.typeError
      | Except.ok (some fn) => Except.ok (Branch.registered fn)
    else if ns = "onnx" then Except.ok Branch.onnxClone
    else if _should_aten_fallback r op_name opset_version operator_export_type then
      Except.ok Branch.atenFallback
    else Except.error (PyExc.unsupportedOperator
      (compute_domain ns is_caffe2_aten_fallback) op_name opset_version)

/-- The whole `try` body of `_run_symbolic_function`: choose a branch, then run
it.  `invoke` abstracts the external effect of each branch (the registered
symbolic function call, the `g.op` clone for the `onnx` domain, or the `g.at`
ATen wrapper); it may return translated value(s), return `None`, or raise. -/
def run_dispatch_body (r : Registry) (operator_export_type : OperatorExportTypes)
    (caffe2_build : Bool) (opset_version : Int)
    (invoke : Branch → Except PyExc (Option Nat)) (kind : String) :
    Except PyExc (Option Nat) :=
  match dispatch_branch r operator_export_type caffe2_build opset_version kind with
  | Except.error e => Except.error e
  | Except.ok b => invoke b

/-- Embedding of `_run_symbolic_function` (utils.py lines 1021-1087): the
dispatch body wrapped by the exception handlers.  `except RuntimeError` returns
`None` when the export type is `ONNX_FALLTHROUGH` and re-raises otherwise;
`except TypeError` always re-raises (with an augmented message, which the
embedding does not track). -/
def _run_symbolic_function (r : Registry)
    (operator_export_type : OperatorExportTypes) (caffe2_build : Bool)
    (opset_version : Int) (invoke : Branch → Except PyExc (Option Nat))
    (kind : String) : Except PyExc (Option Nat) :=
  match run_dispatch_body r operator_export_type caffe2_build opset_version invoke kind with
  | Except.ok v => Except.ok v
  | Except.error e =>
    if e.isRuntimeErrorClass then
      if operator_export_type = OperatorExportTypes.ONNX_FALLTHROUGH then Except.ok none
      else Except.error e
    else Except.error e

/-- What the caller (`_jit_pass_onnx`) does with the result of
`_run_symbolic_function`.  Modelled from the spec and the source comment at
utils.py lines 1022-1023: returning `None` means the node gets cloned as is
into the new graph; the C++ pass itself is not under `src/`. -/
inductive PassAction where
  | cloneUnchanged
  | useResult (v : Nat)
  | raised (e : PyExc)
  deriving DecidableEq

/-- The node action induced by a `_run_symbolic_function` outcome (see
`PassAction`). -/
def onnx_pass_node_action (res : Except PyExc (Option Nat)) : PassAction :=
  match res with
  | Except.ok none => PassAction.cloneUnchanged
  | Except.ok (some v) => PassAction.useResult v
  | Except.error e => PassAction.raised e

/-! ## Custom symbolic registration (utils.py lines 1146-1185) -/

/-- Character class `[a-zA-Z0-9-_]` of the custom-op name regex (utils.py line 1147). -/
def charClassFull (c : Char) : Bool :=
  c.isAlpha || c.isDigit || c = '-' || c = '_'

/-- Character class `[a-zA-Z-_]` heading the op-name part of the regex. -/
def charClassHead (c : Char) : Bool :=
  c.isAlpha || c = '-' || c = '_'

/-- The regex test of `get_ns_op_name_from_custom_op` (utils.py line 1147):
the pattern is anchored, so a name matches exactly when it is
`ns::op` with `ns` over `[a-zA-Z0-9-_]*` and `op` nonempty over
`[a-zA-Z0-9-_]` with a non-digit first character. -/
def custom_op_name_matches (s : String) : Bool :=
  match splitOnDoubleColon s.data with
  | [ns, op_name] =>
    ns.all charClassFull && !op_name.isEmpty && op_name.all charClassFull &&
      (match op_name with
       | c :: _ => charClassHead c
       | [] => false)
  | _ => false

/-- Embedding of `get_ns_op_name_from_custom_op` (utils.py lines 1146-1161):
validate against the regex, reject the `onnx` domain, and map `aten` to the
default (empty) domain. -/
def get_ns_op_name_from_custom_op (symbolic_name : String) :
    Except PyExc (String × String) :=
  if !custom_op_name_matches symbolic_name then Except.error PyExc.valueError
  else
    match splitOnDoubleColon symbolic_name.data with
    | [nsChars, opChars] =>
      let ns : String := String.mk nsChars
      let op_name : String := String.mk opChars
      if ns = "onnx" then Except.error PyExc.valueError
      else Except.ok ((if ns = "aten" then "" else ns), op_name)
    | _ => Except.error PyExc.valueError

/-- Modelled from the spec: `sym_registry.register_op` (not under `src/`)
stores a translation function in the registry under the key
(operator name, namespace, version). -/
def register_op (r : Registry) (op_name : String) (fn : Nat) (ns : String)
    (version : Int) : Registry :=
  fun o d w => if o = op_name ∧ d = ns ∧ w = version then some fn else r o d w

/-- Modelled from the spec: `sym_registry.unregister_op` (not under `src/`)
deletes the registry entry at (operator name, namespace, version). -/
def unregister_op (r : Registry) (op_name : String) (ns : String)
    (version : Int) : Registry :=
  fun o d w => if o = op_name ∧ d = ns ∧ w = version then none else r o d w

/-- The version loop of `register_custom_op_symbolic` (utils.py lines
1173-1175): walk the known opset versions, registering at each one that is at
least the requested version. -/
def registerLoop (op_name : String) (fn : Nat) (ns : String) (opset_version : Int) :
    Registry → List Int → Registry
  | r, [] => r
  | r, version :: rest =>
    registerLoop op_name fn ns opset_version
      (if version ≥ opset_version then register_op r op_name fn ns version else r) rest

/-- The version loop of `unregister_custom_op_symbolic` (utils.py lines
1183-1185). -/
def unregisterLoop (op_name : String) (ns : String) (opset_version : Int) :
    Registry → List Int → Registry
  | r, [] => r
  | r, version :: rest =>
    unregisterLoop op_name ns opset_version
      (if version ≥ opset_version then unregister_op r op_name ns version else r) rest

/-- Embedding of `register_custom_op_symbolic` (utils.py lines 1168-1175).
`stable_opsets` and `main_opset` stand for `_onnx_stable_opsets` and
`_onnx_main_opset` from `torch.onnx.symbolic_helper` (modelled from the spec;
that module is not under `src/`); the walked list is their concatenation
`_onnx_stable_opsets + [_onnx_main_opset]`. -/
def register_custom_op_symbolic (stable_opsets : List Int) (main_opset : Int)
    (r : Registry) (symbolic_name : String) (fn : Nat) (opset_version : Int) :
    Except PyExc Registry :=
  match get_ns_op_name_from_custom_op symbolic_name with
  | Except.error e => Except.error e
  | Except.ok (ns, op_name) =>
    Except.ok (registerLoop op_name fn ns opset_version r (stable_opsets ++ [main_opset]))

/-- Embedding of `unregister_custom_op_symbolic` (utils.py lines 1178-1185). -/
def unregister_custom_op_symbolic (stable_opsets : List Int) (main_opset : Int)
    (r : Registry) (symbolic_name : String) (opset_version : Int) :
    Except PyExc Registry :=
  match get_ns_op_name_from_custom_op symbolic_name with
  | Except.error e => Except.error e
  | Except.ok (ns, op_name) =>
    Except.ok (unregisterLoop op_name ns opset_version r (stable_opsets ++ [main_opset]))

/-! ## The `_model_to_graph` input-count assertion (utils.py lines 510-513) -/

/-- Modelled from the spec: the shape of the tracer collaborator output for a
traced (non-script) model, as far as the input-count assertion consults it.
`graphInputCount` is the input-value count of the traced graph,
`stateDictSize` the number of model parameters (so `len(params)` in
`_create_jit_graph`, line 440), and `flatArgCount` the number of flattened
user input arguments (`len(flatten_args)`, line 511). -/
structure TracedGraphInfo where
  graphInputCount : Nat
  stateDictSize : Nat
  flatArgCount : Nat
  deriving DecidableEq

/-- Modelled from the spec (section 6 input contract): the tracer produces a
graph whose inputs are the flattened user inputs followed positionally by one
input per parameter tensor. -/
def tracer_input_contract (t : TracedGraphInfo) : Prop :=
  t.graphInputCount = t.flatArgCount + t.stateDictSize

/-- Embedding of the assertion at utils.py line 513:
`assert len(params) + len(flatten_args) == sum(1 for _ in graph.inputs())`.
A false condition is an `AssertionError`, not a user-level error. -/
def _model_to_graph_input_assert (numParams numFlatArgs numGraphInputs : Nat) :
    Except PyExc Unit :=
  if numParams + numFlatArgs = numGraphInputs then Except.ok ()
  else Except.error PyExc.assertionError

/-! ## Dynamic-axes validation (`_validate_dynamic_axes`, utils.py lines 1189-1222) -/

/-- An element of a list-form dynamic-axes value: an integer index or any
non-integer value (which `_validate_dynamic_axes` rejects). -/
inductive AxisElem where
  | intIdx (i : Int)
  | nonIntIdx
  deriving DecidableEq

/-- A dynamic-axes value: the list form or the index-to-name dictionary form.
The dictionary keeps Python dict insertion order. -/
inductive AxisVal where
  | axList (xs : List AxisElem)
  | axDict (d : List (Int × String))
  deriving DecidableEq

/-- Warnings that `_validate_dynamic_axes` can emit. -/
inductive Warn where
  | invalidKey (key : String)
  | autoNames (key : String)
  | dupIndex (idx : Int) (key : String)
  deriving DecidableEq

/-- The inner loop of `_validate_dynamic_axes` building `value_dict`
(utils.py lines 1213-1221): enumerate the list, raise `ValueError` on a
non-integer, warn and skip on a duplicate index, otherwise record
`str(key) + "_dynamic_axes_" + str(i + 1)` for enumerate index `i`. -/
def buildValueDict (key : String) :
    List AxisElem → Nat → List (Int × String) → List Warn →
    Except PyExc (List (Int × String) × List Warn)
  | [], _, acc, ws => Except.ok (acc, ws)
  | AxisElem.nonIntIdx :: _, _, _, _ => Except.error PyExc.valueError
  | AxisElem.intIdx x :: rest, i, acc, ws =>
    if (acc.find? (fun p => p.1 == x)).isSome then
      buildValueDict key rest (i + 1) acc (ws ++ [Warn.dupIndex x key])
    else
      buildValueDict key rest (i + 1)
        (acc ++ [(x, key ++ "_dynamic_axes_" ++ toString (i + 1))]) ws

/-- Per-entry processing of `_validate_dynamic_axes` (utils.py lines
1206-1222): warn on an unknown key, convert a list-form value (with the
auto-name warning), and leave dictionary-form values unchanged. -/
def processAxesEntry (valid_names : List String) (kv : String × AxisVal) :
    Except PyExc ((String × AxisVal) × List Warn) :=
  let ws0 := if kv.1 ∈ valid_names then [] else [Warn.invalidKey kv.1]
  match kv.2 with
  | AxisVal.axDict d => Except.ok ((kv.1, AxisVal.axDict d), ws0)
  | AxisVal.axList xs =>
    match buildValueDict kv.1 xs 0 [] [] with
    | Except.error e => Except.error e
    | Except.ok (d, ws) =>
      Except.ok ((kv.1, AxisVal.axDict d), ws0 ++ [Warn.autoNames kv.1] ++ ws)

/-- The entries loop of `_validate_dynamic_axes`: process each entry in order,
propagating the first error. -/
def processAxesEntries (valid_names : List String) :
    List (String × AxisVal) →
    Except PyExc (List (String × AxisVal) × List Warn)
  | [] => Except.ok ([], [])
  | kv :: rest =>
    match processAxesEntry valid_names kv with
    | Except.error e => Except.error e
    | Except.ok (kv', ws) =>
      match processAxesEntries valid_names rest with
      | Except.error e => Except.error e
      | Except.ok (rest', ws') => Except.ok (kv' :: rest', ws ++ ws')

/-- Python truthiness of an optional name list (`is None or len(...) == 0`). -/
def optNamesEmpty (o : Option (List String)) : Bool :=
  match o with
  | none => true
  | some l => l.isEmpty

/-- `x or []` on an optional name list. -/
def orEmpty (o : Option (List String)) : List String := o.getD []

/-- Embedding of `_validate_dynamic_axes` (utils.py lines 1189-1222).
`model_graph` carries the input and output debug names of `model.graph` when
the model has one (the `hasattr(model, "graph")` branch); the result is the
rewritten dynamic-axes mapping together with the emitted warnings. -/
def _validate_dynamic_axes (dynamic_axes : List (String × AxisVal))
    (model_graph : Option (List String × List String))
    (input_names output_names : Option (List String)) :
    Except PyExc (List (String × AxisVal) × List Warn) :=
  if dynamic_axes.length = 0 then Except.ok (dynamic_axes, [])
  else
    let inames := match model_graph with
      | some (gis, _) => if optNamesEmpty input_names then some gis else input_names
      | none => input_names
    let onames := match model_graph with
      | some (_, gos) => if optNamesEmpty output_names then some gos else output_names
      | none => output_names
    let valid_names := orEmpty inames ++ orEmpty onames
    processAxesEntries valid_names dynamic_axes

/-- The names generated for a list of integer indices starting at enumerate
index `start`: element `x` at enumerate index `i` is mapped to
`key ++ "_dynamic_axes_" ++ toString (i + 1)`. -/
def axesGenNames (key : String) : List Int → Nat → List (Int × String)
  | [], _ => []
  | x :: rest, start =>
    (x, key ++ "_dynamic_axes_" ++ toString (start + 1)) :: axesGenNames key rest (start + 1)

/-! ## The list-constant split pass (`_split_tensor_list_constants`, utils.py lines 120-150)

The TorchScript graph is embedded just far enough for this pass: nodes carry a
kind string, input value identifiers, a single output value identifier with its
type, the constant tensor payload (for `prim::Constant` nodes holding a list of
tensors, a list of tensor tags), and nested blocks.  In-place mutation becomes
a functional rewrite: inserted nodes are placed before the constant node, and
`replaceAllUsesWith` is collected as a substitution applied to every use in the
graph at the end (the inserted nodes only mention fresh value identifiers, so
applying the substitutions once at the end agrees with applying each one
immediately). -/

namespace SplitConstants

/-- Value types, as far as `_is_constant_tensor_list` distinguishes them:
`tensorList` is a subtype of `List[Tensor]`, `optTensorList` of
`List[Optional[Tensor]]`. -/
inductive VType where
  | tensor
  | tensorList
  | optTensorList
  | number
  | other
  deriving DecidableEq

mutual
/-- A TorchScript graph node: kind, input value ids, output value id and type,
constant tensor payload, and nested blocks. -/
inductive Node : Type where
  | mk (kind : String) (inputs : List Nat) (output : Nat) (outTy : VType)
      (tensorValues : List Nat) (blocks : List Block) : Node
/-- A nested block owning its nodes. -/
inductive Block : Type where
  | mk (nodes : List Node) : Block
end

def Node.kind : Node → String
  | .mk k _ _ _ _ _ => k

def Node.inputs : Node → List Nat
  | .mk _ ins _ _ _ _ => ins

def Node.output : Node → Nat
  | .mk _ _ out _ _ _ => out

def Node.outTy : Node → VType
  | .mk _ _ _ ty _ _ => ty

def Node.tensorValues : Node → List Nat
  | .mk _ _ _ _ vals _ => vals

def Node.blocks : Node → List Block
  | .mk _ _ _ _ _ bs => bs

def Block.nodes : Block → List Node
  | .mk ns => ns

/-- Embedding of `_is_constant_tensor_list` (utils.py lines 120-127): a
`prim::Constant` node whose output type is a subtype of `List[Tensor]` or of
`List[Optional[Tensor]]` (the Python function returns `None`, hence falsy,
otherwise). -/
def _is_constant_tensor_list (n : Node) : Bool :=
  n.kind == "prim::Constant" &&
    (n.outTy == VType.tensorList || n.outTy == VType.optTensorList)

/-- The `g.insertConstant` calls of the pass: one fresh `prim::Constant` tensor
node per element of the list payload, in order, returning the nodes, their
output ids, and the next fresh id. -/
def mkConsts : Nat → List Nat → List Node × List Nat × Nat
  | fresh, [] => ([], [], fresh)
  | fresh, v :: rest =>
    let node : Node := Node.mk "prim::Constant" [] fresh VType.tensor [v] []
    let r := mkConsts (fresh + 1) rest
    (node :: r.1, fresh :: r.2.1, r.2.2)

mutual
/-- Process the nested blocks of one node (the `for subblock in node.blocks()`
recursion of `_split_tensor_list_constants`). -/
def splitNode : Nat → Node → Node × List (Nat × Nat) × Nat
  | fresh, Node.mk k ins out ty vals bs =>
    let r := splitBlocks fresh bs
    (Node.mk k ins out ty vals r.1, r.2)
def splitBlocks : Nat → List Block → List Block × List (Nat × Nat) × Nat
  | fresh, [] => ([], [], fresh)
  | fresh, b :: bs =>
    let r1 := splitBlock fresh b
    let r2 := splitBlocks r1.2.2 bs
    (r1.1 :: r2.1, r1.2.1 ++ r2.2.1, r2.2.2)
def splitBlock : Nat → Block → Block × List (Nat × Nat) × Nat
  | fresh, Block.mk ns =>
    let r := splitNodes fresh ns
    (Block.mk r.1, r.2)
/-- The node loop of `_split_tensor_list_constants` over one block: recurse
into subblocks, then, for a constant tensor-list node, insert one tensor
constant per element followed by a `prim::ListConstruct` over them (typed
`List[Tensor]`) before the node, and record the `replaceAllUsesWith`
substitution from the old constant output to the list-construct output.  The
original constant node is left in place. -/
def splitNodes : Nat → List Node → List Node × List (Nat × Nat) × Nat
  | fresh, [] => ([], [], fresh)
  | fresh, n :: rest =>
    let r1 := splitNode fresh n
    let n' := r1.1
    if _is_constant_tensor_list n' then
      let c := mkConsts r1.2.2 n'.tensorValues
      let lcId := c.2.2
      let lc : Node := Node.mk "prim::ListConstruct" c.2.1 lcId VType.tensorList [] []
      let r2 := splitNodes (lcId + 1) rest
      (c.1 ++ lc :: n' :: r2.1, r1.2.1 ++ (n'.output, lcId) :: r2.2.1, r2.2.2)
    else
      let r2 := splitNodes r1.2.2 rest
      (n' :: r2.1, r1.2.1 ++ r2.2.1, r2.2.2)
end

/-- Apply a `replaceAllUsesWith` substitution to one value id. -/
def substOf (s : List (Nat × Nat)) (v : Nat) : Nat :=
  match s.find? (fun p => p.1 == v) with
  | some p => p.2
  | none => v

mutual
/-- Apply the collected substitutions to every use (node inputs) in a node and
its nested blocks. -/
def substNode : List (Nat × Nat) → Node → Node
  | s, Node.mk k ins out ty vals bs =>
    Node.mk k (ins.map (substOf s)) out ty vals (substBlocks s bs)
def substBlocks : List (Nat × Nat) → List Block → List Block
  | _, [] => []
  | s, b :: bs => substBlock s b :: substBlocks s bs
def substBlock : List (Nat × Nat) → Block → Block
  | s, Block.mk ns => Block.mk (substNodes s ns)
def substNodes : List (Nat × Nat) → List Node → List Node
  | _, [] => []
  | s, n :: ns => substNode s n :: substNodes s ns
end

/-- A TorchScript graph as consumed by the pass: the top-level block of nodes,
the graph output value ids (the uses held by the return node), and the next
fresh value id. -/
structure TGraph where
  nodes : List Node
  outputs : List Nat
  fresh : Nat

/-- Embedding of `_split_tensor_list_constants(g, g)` on the whole graph
(utils.py lines 133-150). -/
def _split_tensor_list_constants (g : TGraph) : TGraph :=
  let r := splitNodes g.fresh g.nodes
  { nodes := substNodes r.2.1 r.1,
    outputs := g.outputs.map (substOf r.2.1),
    fresh := r.2.2 }

mutual
/-- Count the nodes satisfying a predicate, nested blocks included. -/
def countNodeP (p : Node → Bool) : Node → Nat
  | Node.mk k ins out ty vals bs =>
    (if p (Node.mk k ins out ty vals bs) then 1 else 0) + countBlocksP p bs
def countBlocksP (p : Node → Bool) : List Block → Nat
  | [] => 0
  | b :: bs => countBlockP p b + countBlocksP p bs
def countBlockP (p : Node → Bool) : Block → Nat
  | Block.mk ns => countNodesP p ns
def countNodesP (p : Node → Bool) : List Node → Nat
  | [] => 0
  | n :: ns => countNodeP p n + countNodesP p ns
end

mutual
/-- Count the uses of a value id among node inputs, nested blocks included. -/
def usesInNode (v : Nat) : Node → Nat
  | Node.mk _ ins _ _ _ bs => ins.count v + usesInBlocks v bs
def usesInBlocks (v : Nat) : List Block → Nat
  | [] => 0
  | b :: bs => usesInBlock v b + usesInBlocks v bs
def usesInBlock (v : Nat) : Block → Nat
  | Block.mk ns => usesInNodes v ns
def usesInNodes (v : Nat) : List Node → Nat
  | [] => 0
  | n :: ns => usesInNode v n + usesInNodes v ns
end

/-- The number of uses of a value id in a graph: node inputs plus graph
outputs. -/
def usesOf (g : TGraph) (v : Nat) : Nat :=
  usesInNodes v g.nodes + g.outputs.count v

/-- How many list-of-tensor constant nodes a graph contains. -/
def countConstTensorList (g : TGraph) : Nat :=
  countNodesP _is_constant_tensor_list g.nodes

/-- How many `prim::ListConstruct` nodes a graph contains. -/
def countListConstruct (g : TGraph) : Nat :=
  countNodesP (fun n => n.kind == "prim::ListConstruct") g.nodes

/-- The scenario graph of the claim: one `prim::Constant` node whose value is
a list of two tensors (tags `t1`, `t2`), one consumer using it, and the
consumer result as graph output. -/
def c6Graph (t1 t2 : Nat) : TGraph :=
  { nodes := [Node.mk "prim::Constant" [] 0 VType.tensorList [t1, t2] [],
              Node.mk "aten::cat" [0] 1 VType.tensor [] []],
    outputs := [1],
    fresh := 2 }

end SplitConstants

/-! ## Input/output naming (`_set_input_and_output_names`, utils.py lines 801-828)

The graph is embedded as far as this function consults it: a flat node list
(kind, input ids, single output id, a type tag), the graph input and output
value ids, a debug-name assignment on value ids, and a fresh-id counter.
`setDebugName` is the plain name update; `graph.create("onnx::Identity")`
followed by `insertAfter`/`addInput`/`setType`/`replaceInput` becomes the
insertion of a fresh identity node after the producer of the duplicated value
and an index update of the output list. -/

namespace OutNames

/-- A node of the post-translation graph: kind, input value ids, the single
output value id, and an opaque type tag (copied by `setType`). -/
structure ONode where
  kind : String
  inputs : List Nat
  output : Nat
  ty : Nat
  deriving DecidableEq

/-- The graph as consulted by `_set_input_and_output_names`. -/
structure OGraph where
  nodes : List ONode
  inputIds : List Nat
  outputIds : List Nat
  names : Nat → String
  fresh : Nat

/-- `Value.setDebugName`. -/
def setDebugName (g : OGraph) (v : Nat) (nm : String) : OGraph :=
  { g with names := fun x => if x = v then nm else g.names x }

/-- The `if node.debugName() != name: node.setDebugName(name)` step. -/
def maybeSetName (g : OGraph) (v : Nat) (nm : String) : OGraph :=
  if g.names v ≠ nm then setDebugName g v nm else g

/-- `node.type()` of the value `v` (the type tag of its producer; graph inputs
get a default tag). -/
def value_type (g : OGraph) (v : Nat) : Nat :=
  match g.nodes.find? (fun nd => nd.output == v) with
  | some nd => nd.ty
  | none => 0

/-- `identity_node.insertAfter(node.node())`: place the new node right after
the producer of `v` (or at the front when `v` has no producer node). -/
def insert_after_producer (l : List ONode) (v : Nat) (nd : ONode) : List ONode :=
  match l.findIdx? (fun m => m.output == v) with
  | some j => l.take (j + 1) ++ nd :: l.drop (j + 1)
  | none => nd :: l

/-- The `set_names` loop for inputs (descriptor `"input"`): no duplicate
handling, just conditional renaming along the zip of names with input values. -/
def set_input_names (g : OGraph) (nl : List String) : OGraph :=
  (nl.zip g.inputIds).foldl (fun gg p => maybeSetName gg p.2 p.1) g

/-- The `set_names` loop for outputs (descriptor `"output"`), iterating over
`enumerate(zip(name_list, node_list))` where `node_list` is the snapshot of the
graph outputs taken before the loop.  `seen` is `output_node_set`; a value
already seen gets a fresh `onnx::Identity` node inserted after its producer,
typed like the value, wired as `replaceInput(i, identity_output)`, and the
identity output is renamed and recorded instead. -/
def set_output_names_loop (g : OGraph) (seen : List Nat) (i : Nat) :
    List (String × Nat) → OGraph
  | [] => g
  | (nm, v) :: rest =>
    if v ∈ seen then
      set_output_names_loop
        (maybeSetName
          { g with
            nodes :=
              insert_after_producer g.nodes v
                { kind := "onnx::Identity", inputs := [v], output := g.fresh,
                  ty := value_type g v },
            outputIds := g.outputIds.set i g.fresh,
            fresh := g.fresh + 1 } g.fresh nm)
        (seen ++ [g.fresh]) (i + 1) rest
    else
      set_output_names_loop (maybeSetName g v nm) (seen ++ [v]) (i + 1) rest

/-- The output half of `_set_input_and_output_names`: length check, then the
loop over the snapshot zip. -/
def set_output_names (g : OGraph) (output_names : Option (List String)) :
    Except PyExc OGraph :=
  match output_names with
  | none => Except.ok g
  | some nl =>
    if nl.length > g.outputIds.length then Except.error PyExc.runtimeError
    else Except.ok (set_output_names_loop g [] 0 (nl.zip g.outputIds))

/-- Embedding of `_set_input_and_output_names` (utils.py lines 801-828):
`set_names` over the inputs, then over the outputs; a name list longer than
the corresponding value list raises `RuntimeError`. -/
def _set_input_and_output_names (g : OGraph)
    (input_names output_names : Option (List String)) : Except PyExc OGraph :=
  match input_names with
  | none => set_output_names g output_names
  | some nl =>
    if nl.length > g.inputIds.length then Except.error PyExc.runtimeError
    else set_output_names (set_input_names g nl) output_names

/-- Every value id mentioned anywhere in the graph. -/
def idsList (g : OGraph) : List Nat :=
  g.inputIds ++ g.outputIds ++ g.nodes.flatMap (fun nd => nd.output :: nd.inputs)

/-- Well-formedness: the fresh counter is above every value id in the graph. -/
def WF (g : OGraph) : Prop :=
  ∀ v ∈ idsList g, v < g.fresh

/-- The length precondition of the input half (`set_names` raises when the
name list is longer than the input list). -/
def inputPhaseOk (g : OGraph) (input_names : Option (List String)) : Prop :=
  match input_names with
  | none => True
  | some nl => nl.length ≤ g.inputIds.length

end OutNames

/-! ## Theorems -/

/-- C2: for every export whose resolved target operator-set version is less
than 9, `_decide_keep_init_as_input` returns `True` regardless of the
caller-requested value and of the operator-export-type, and the warning is
emitted exactly when the caller requested `False`. -/
theorem C2_keep_init_forced_below_9 (keep_init : Option Bool)
    (operator_export_type : OperatorExportTypes) (opset_version : Int)
    (h : opset_version < 9) :
    _decide_keep_init_as_input keep_init operator_export_type opset_version
      = (true, decide (keep_init = some false)) := by
  unfold _decide_keep_init_as_input
  simp [h]

/-- Witness for C2 at `keep_initializers_as_inputs = False`, export type
`ONNX`, opset version 8: the resolved value is `True` and the warning fires. -/
theorem C2_keep_init_forced_below_9_witness :
    _decide_keep_init_as_input (some false) OperatorExportTypes.ONNX 8
      = (true, true) := by
  simpa using C2_keep_init_forced_below_9 (some false) OperatorExportTypes.ONNX 8 (by decide)

/-- C5 counterexample: with folding requested, export type `ONNX` and training
mode `TRAINING`, `_decide_constant_folding` returns `True`; the resolved
constant-folding setting is not `False`, contrary to the claim (the source
only emits the advisory warning). -/
theorem C5_counterexample :
    ¬ ((_decide_constant_folding true OperatorExportTypes.ONNX
        (some TrainingMode.TRAINING)).1 = false) := by
  decide

/-- C5 (amended): for export type `ONNX`, when constant folding is requested
and the training mode is set to a value other than `EVAL`,
`_decide_constant_folding` emits the training-mode warning but keeps the
resolved setting `True`; folding is not forced off. -/
theorem C5_fold_warns_but_stays_on (training : Option TrainingMode)
    (h1 : training ≠ none) (h2 : training ≠ some TrainingMode.EVAL) :
    _decide_constant_folding true OperatorExportTypes.ONNX training
      = (true, false, true) := by
  cases training with
  | none => exact absurd rfl h1
  | some t =>
    cases t with
    | EVAL => exact absurd rfl h2
    | PRESERVE => decide
    | TRAINING => decide

/-- Witness for C5 (amended) at training mode `TRAINING`. -/
theorem C5_fold_warns_but_stays_on_witness :
    _decide_constant_folding true OperatorExportTypes.ONNX (some TrainingMode.TRAINING)
      = (true, false, true) :=
  C5_fold_warns_but_stays_on (some TrainingMode.TRAINING) (by decide) (by decide)

/-- C1 counterexample: a re-entrant `_export` call (entered with
`__IN_ONNX_EXPORT` already `True`) raises at the entry assertion and leaves
the flag `True`, so the claim that after every export call, normal return or
raise, the flag is `False` again is false at this input. -/
theorem C1_counterexample :
    ¬ ((_export { inExport := true, traceModuleMap := none }
          { isDataParallel := false, moduleTypenames := [] }
          (EMAFArg.boolArg false) (Except.ok ())).2.inExport = false) := by
  decide

/-- C1 (amended): when the pre-guard steps succeed (trace-module-map setup
does not raise and the model is not `DataParallel`), a second export entered
while one is in flight fails at the guard with an `AssertionError`, before the
body runs and without touching the global state further; and every export call
that passes the guard ends — whether the body returns normally or raises —
with the in-progress flag `False` and the trace-module map reset, the body
outcome being propagated. -/
theorem C1_guard_and_cleanup (st : GState) (model : Model) (emaf : EMAFArg)
    (body : Except PyExc Unit)
    (hsetup : isOkE (_setup_trace_module_map st model emaf).1 = true)
    (hdp : model.isDataParallel = false) :
    (st.inExport = true →
      (_export st model emaf body).1 = Except.error PyExc.assertionError ∧
      (_export st model emaf body).2 = (_setup_trace_module_map st model emaf).2) ∧
    (st.inExport = false →
      (_export st model emaf body).2.inExport = false ∧
      (_export st model emaf body).2.traceModuleMap = none ∧
      (_export st model emaf body).1 = body) := by
  cases emaf with
  | boolArg b =>
    cases b <;>
      exact ⟨fun hin => by simp [_export, _setup_trace_module_map, hdp, hin],
             fun hin => by simp [_export, _setup_trace_module_map, hdp, hin]⟩
  | setArg elems =>
    by_cases hlen : elems.length > 0
    · by_cases hall : elems.all (fun e => e) = true
      · exact ⟨fun hin => by simp [_export, _setup_trace_module_map, hdp, hin, hlen, hall],
               fun hin => by simp [_export, _setup_trace_module_map, hdp, hin, hlen, hall]⟩
      · exfalso
        simp [_setup_trace_module_map, hlen, hall, isOkE] at hsetup
    · exact ⟨fun hin => by simp [_export, _setup_trace_module_map, hdp, hin, hlen],
             fun hin => by simp [_export, _setup_trace_module_map, hdp, hin, hlen]⟩

/-- Witness for C1 (amended): a concrete guarded export whose body raises
still ends with the flag cleared and the trace-module map reset. -/
theorem C1_guard_and_cleanup_witness :
    (_export { inExport := false, traceModuleMap := some ["m"] }
        { isDataParallel := false, moduleTypenames := ["m"] }
        (EMAFArg.boolArg true) (Except.error PyExc.runtimeError)).2.inExport = false ∧
    (_export { inExport := false, traceModuleMap := some ["m"] }
        { isDataParallel := false, moduleTypenames := ["m"] }
        (EMAFArg.boolArg true) (Except.error PyExc.runtimeError)).2.traceModuleMap = none :=
  ⟨((C1_guard_and_cleanup _ _ _ _ (by decide) rfl).2 rfl).1,
   ((C1_guard_and_cleanup _ _ _ _ (by decide) rfl).2 rfl).2.1⟩

/-- C9: under the tracer input contract (graph inputs are the flattened user
inputs followed by one input per parameter) and input-count preservation by
the optimization passes, the `_model_to_graph` parameter-count assertion
succeeds — the assertion branch is unreachable; and whenever the counts
disagree, the failure is an `AssertionError`, not a user-level error. -/
theorem C9_input_count_assert (t : TracedGraphInfo) (optimizedInputCount : Nat)
    (hc : tracer_input_contract t)
    (hopt : optimizedInputCount = t.graphInputCount) :
    _model_to_graph_input_assert t.stateDictSize t.flatArgCount optimizedInputCount
      = Except.ok () ∧
    ∀ p f gi : Nat, ¬ (p + f = gi) →
      _model_to_graph_input_assert p f gi = Except.error PyExc.assertionError := by
  unfold tracer_input_contract at hc
  constructor
  · unfold _model_to_graph_input_assert
    rw [hopt, hc, if_pos (by omega)]
  · intro p f gi h
    unfold _model_to_graph_input_assert
    rw [if_neg h]

/-- Witness for C9 at a traced graph with 3 parameters, 2 user inputs, 5 graph
inputs, and a count mismatch example. -/
theorem C9_input_count_assert_witness :
    _model_to_graph_input_assert 3 2 5 = Except.ok () ∧
    _model_to_graph_input_assert 3 2 4 = Except.error PyExc.assertionError :=
  ⟨(C9_input_count_assert ⟨5, 3, 2⟩ 5 rfl rfl).1,
   (C9_input_count_assert ⟨5, 3, 2⟩ 5 rfl rfl).2 3 2 4 (by decide)⟩

/-- C3: in fallthrough mode (`ONNX_FALLTHROUGH`), whenever the dispatch body
of `_run_symbolic_function` raises a RuntimeError-class exception — for every
node kind, registry state, and branch outcome — the exception is swallowed,
the function returns `None`, and the node is therefore cloned unchanged into
the output graph. -/
theorem C3_fallthrough_swallows_runtime_errors (r : Registry) (caffe2_build : Bool)
    (opset_version : Int) (invoke : Branch → Except PyExc (Option Nat))
    (kind : String) (e : PyExc)
    (hbody : run_dispatch_body r OperatorExportTypes.ONNX_FALLTHROUGH caffe2_build
        opset_version invoke kind = Except.error e)
    (hrt : e.isRuntimeErrorClass = true) :
    _run_symbolic_function r OperatorExportTypes.ONNX_FALLTHROUGH caffe2_build
        opset_version invoke kind = Except.ok none ∧
    onnx_pass_node_action (_run_symbolic_function r OperatorExportTypes.ONNX_FALLTHROUGH
        caffe2_build opset_version invoke kind) = PassAction.cloneUnchanged := by
  have h : _run_symbolic_function r OperatorExportTypes.ONNX_FALLTHROUGH caffe2_build
      opset_version invoke kind = Except.ok none := by
    unfold _run_symbolic_function
    rw [hbody]
    simp [hrt]
  exact ⟨h, by rw [h]; rfl⟩

/-- Witness for C3: an unregistered custom-domain node under fallthrough mode;
the dispatch raises the unsupported-operator error (a RuntimeError subclass)
and the function returns `None`. -/
theorem C3_fallthrough_swallows_runtime_errors_witness :
    _run_symbolic_function (fun _ _ _ => none) OperatorExportTypes.ONNX_FALLTHROUGH
        false 13 (fun _ => Except.ok none) "custom::foo" = Except.ok none ∧
    onnx_pass_node_action (_run_symbolic_function (fun _ _ _ => none)
        OperatorExportTypes.ONNX_FALLTHROUGH false 13 (fun _ => Except.ok none)
        "custom::foo") = PassAction.cloneUnchanged :=
  C3_fallthrough_swallows_runtime_errors (fun _ _ _ => none) false 13
    (fun _ => Except.ok none) "custom::foo"
    (PyExc.unsupportedOperator "custom" "foo" 13) (by decide) (by decide)

/-- C4: for every node whose computed (domain, opname) has a registered
translation at the current opset version, `_run_symbolic_function` dispatches
to the registered translation, for every operator-export-type (including
`ONNX_ATEN` and `ONNX_ATEN_FALLBACK`); the ATen fallback branch is never
chosen for it, and the overall result is the wrapped outcome of invoking that
registered translation. -/
theorem C4_registered_translation_wins (r : Registry)
    (oet : OperatorExportTypes) (caffe2_build : Bool) (opset_version : Int)
    (invoke : Branch → Except PyExc (Option Nat)) (kind ns op_name : String) (fn : Nat)
    (hparse : parse_ns_op_name kind = Except.ok (ns, op_name))
    (hreg : r op_name (compute_domain ns
        (decide (oet = OperatorExportTypes.ONNX_ATEN_FALLBACK) && caffe2_build))
        opset_version = some fn) :
    dispatch_branch r oet caffe2_build opset_version kind
        = Except.ok (Branch.registered fn) ∧
    _run_symbolic_function r oet caffe2_build opset_version invoke kind
        = (match invoke (Branch.registered fn) with
           | Except.ok v => Except.ok v
           | Except.error e =>
             if e.isRuntimeErrorClass then
               if oet = OperatorExportTypes.ONNX_FALLTHROUGH then Except.ok none
               else Except.error e
             else Except.error e) := by
  have hro : is_registered_op r op_name
      (compute_domain ns (decide (oet = OperatorExportTypes.ONNX_ATEN_FALLBACK) && caffe2_build))
      opset_version = true := by
    unfold is_registered_op
    rw [hreg]
    rfl
  have hd : dispatch_branch r oet caffe2_build opset_version kind
      = Except.ok (Branch.registered fn) := by
    unfold dispatch_branch
    rw [hparse]
    simp [hro, _find_symbolic_in_registry, hreg]
  refine ⟨hd, ?_⟩
  unfold _run_symbolic_function run_dispatch_body
  rw [hd]

/-- Witness for C4: a registered `aten::relu` translation at opset 13 wins
even under `ONNX_ATEN`. -/
theorem C4_registered_translation_wins_witness :
    dispatch_branch (fun o d w => if o = "relu" ∧ d = "" ∧ w = 13 then some 5 else none)
        OperatorExportTypes.ONNX_ATEN true 13 "aten::relu"
      = Except.ok (Branch.registered 5) :=
  (C4_registered_translation_wins
    (fun o d w => if o = "relu" ∧ d = "" ∧ w = 13 then some 5 else none)
    OperatorExportTypes.ONNX_ATEN true 13 (fun _ => Except.ok none)
    "aten::relu" "aten" "relu" 5 (by decide) (by decide)).1

/-- C6 counterexample: after `_split_tensor_list_constants` on the scenario
graph (one constant whose value is a list of two tensors plus one consumer),
the original list-of-tensor constant node is still in the graph — the pass
only redirects its uses, and the dead node is removed later by DCE — so the
count of list-of-tensor constant nodes is 1, not 0 as the claim states. -/
theorem C6_counterexample :
    ¬ (SplitConstants.countConstTensorList
        (SplitConstants._split_tensor_list_constants (SplitConstants.c6Graph 0 1)) = 0) := by
  decide

/-- C6 (amended): on the scenario graph, `_split_tensor_list_constants`
inserts two individual tensor-constant nodes and one `prim::ListConstruct`
node taking exactly their outputs as inputs before the original constant,
redirects all uses of the original constant output to the list-construct
output (the old output keeps zero uses, the new one is used by the consumer),
and leaves the original list-of-tensor constant node in place, dead — hence
one list-of-tensor constant node remains until the subsequent DCE pass. -/
theorem C6_split_scenario (t1 t2 : Nat) :
    SplitConstants._split_tensor_list_constants (SplitConstants.c6Graph t1 t2)
      = { nodes :=
            [SplitConstants.Node.mk "prim::Constant" [] 2 SplitConstants.VType.tensor [t1] [],
             SplitConstants.Node.mk "prim::Constant" [] 3 SplitConstants.VType.tensor [t2] [],
             SplitConstants.Node.mk "prim::ListConstruct" [2, 3] 4
               SplitConstants.VType.tensorList [] [],
             SplitConstants.Node.mk "prim::Constant" [] 0 SplitConstants.VType.tensorList
               [t1, t2] [],
             SplitConstants.Node.mk "aten::cat" [4] 1 SplitConstants.VType.tensor [] []],
          outputs := [1],
          fresh := 5 } ∧
    SplitConstants.countListConstruct
        (SplitConstants._split_tensor_list_constants (SplitConstants.c6Graph t1 t2)) = 1 ∧
    SplitConstants.usesOf
        (SplitConstants._split_tensor_list_constants (SplitConstants.c6Graph t1 t2)) 0 = 0 ∧
    SplitConstants.usesOf
        (SplitConstants._split_tensor_list_constants (SplitConstants.c6Graph t1 t2)) 4 = 1 ∧
    SplitConstants.countConstTensorList
        (SplitConstants._split_tensor_list_constants (SplitConstants.c6Graph t1 t2)) = 1 :=
  ⟨rfl, rfl, rfl, rfl, rfl⟩

/-- Witness for C6 (amended) at tensor tags 7 and 9. -/
theorem C6_split_scenario_witness :
    SplitConstants.countListConstruct
        (SplitConstants._split_tensor_list_constants (SplitConstants.c6Graph 7 9)) = 1 ∧
    SplitConstants.usesOf
        (SplitConstants._split_tensor_list_constants (SplitConstants.c6Graph 7 9)) 0 = 0 :=
  ⟨(C6_split_scenario 7 9).2.1, (C6_split_scenario 7 9).2.2.1⟩

/-- Pointwise evaluation of one conditional registration step. -/
theorem registerStep_eval (r : Registry) (op_name : String) (fn : Nat) (ns : String)
    (opset_version k : Int) (o d : String) (w : Int) :
    (if k ≥ opset_version then register_op r op_name fn ns k else r) o d w
      = (if o = op_name ∧ d = ns ∧ w = k ∧ k ≥ opset_version then some fn else r o d w) := by
  by_cases hk : k ≥ opset_version
  · simp only [if_pos hk, register_op]
    by_cases hc : o = op_name ∧ d = ns ∧ w = k
    · rw [if_pos hc, if_pos ⟨hc.1, hc.2.1, hc.2.2, hk⟩]
    · rw [if_neg hc, if_neg (fun h => hc ⟨h.1, h.2.1, h.2.2.1⟩)]
  · rw [if_neg hk, if_neg (fun h => hk h.2.2.2)]

/-- Pointwise evaluation of one conditional unregistration step. -/
theorem unregisterStep_eval (r : Registry) (op_name : String) (ns : String)
    (opset_version k : Int) (o d : String) (w : Int) :
    (if k ≥ opset_version then unregister_op r op_name ns k else r) o d w
      = (if o = op_name ∧ d = ns ∧ w = k ∧ k ≥ opset_version then none else r o d w) := by
  by_cases hk : k ≥ opset_version
  · simp only [if_pos hk, unregister_op]
    by_cases hc : o = op_name ∧ d = ns ∧ w = k
    · rw [if_pos hc, if_pos ⟨hc.1, hc.2.1, hc.2.2, hk⟩]
    · rw [if_neg hc, if_neg (fun h => hc ⟨h.1, h.2.1, h.2.2.1⟩)]
  · rw [if_neg hk, if_neg (fun h => hk h.2.2.2)]

/-- Pointwise characterization of the registration version loop. -/
theorem registerLoop_spec (op_name : String) (fn : Nat) (ns : String) (opset_version : Int)
    (ks : List Int) (r : Registry) (o d : String) (w : Int) :
    registerLoop op_name fn ns opset_version r ks o d w
      = (if o = op_name ∧ d = ns ∧ w ∈ ks ∧ w ≥ opset_version then some fn
         else r o d w) := by
  induction ks generalizing r with
  | nil => simp [registerLoop]
  | cons k rest ih =>
    rw [registerLoop, ih, registerStep_eval]
    by_cases hrest : o = op_name ∧ d = ns ∧ w ∈ rest ∧ w ≥ opset_version
    · rw [if_pos hrest,
        if_pos ⟨hrest.1, hrest.2.1, List.mem_cons.2 (Or.inr hrest.2.2.1), hrest.2.2.2⟩]
    · rw [if_neg hrest]
      by_cases hk : o = op_name ∧ d = ns ∧ w = k ∧ k ≥ opset_version
      · rw [if_pos hk,
          if_pos ⟨hk.1, hk.2.1, List.mem_cons.2 (Or.inl hk.2.2.1), hk.2.2.1 ▸ hk.2.2.2⟩]
      · rw [if_neg hk, if_neg]
        rintro ⟨h1, h2, h3, h4⟩
        rcases List.mem_cons.1 h3 with h5 | h5
        · exact hk ⟨h1, h2, h5, h5 ▸ h4⟩
        · exact hrest ⟨h1, h2, h5, h4⟩

/-- Pointwise characterization of the unregistration version loop. -/
theorem unregisterLoop_spec (op_name : String) (ns : String) (opset_version : Int)
    (ks : List Int) (r : Registry) (o d : String) (w : Int) :
    unregisterLoop op_name ns opset_version r ks o d w
      = (if o = op_name ∧ d = ns ∧ w ∈ ks ∧ w ≥ opset_version then none
         else r o d w) := by
  induction ks generalizing r with
  | nil => simp [unregisterLoop]
  | cons k rest ih =>
    rw [unregisterLoop, ih, unregisterStep_eval]
    by_cases hrest : o = op_name ∧ d = ns ∧ w ∈ rest ∧ w ≥ opset_version
    · rw [if_pos hrest,
        if_pos ⟨hrest.1, hrest.2.1, List.mem_cons.2 (Or.inr hrest.2.2.1), hrest.2.2.2⟩]
    · rw [if_neg hrest]
      by_cases hk : o = op_name ∧ d = ns ∧ w = k ∧ k ≥ opset_version
      · rw [if_pos hk,
          if_pos ⟨hk.1, hk.2.1, List.mem_cons.2 (Or.inl hk.2.2.1), hk.2.2.1 ▸ hk.2.2.2⟩]
      · rw [if_neg hk, if_neg]
        rintro ⟨h1, h2, h3, h4⟩
        rcases List.mem_cons.1 h3 with h5 | h5
        · exact hk ⟨h1, h2, h5, h5 ▸ h4⟩
        · exact hrest ⟨h1, h2, h5, h4⟩

/-- C10: `register_custom_op_symbolic` with requested version `v` registers the
translation under exactly the known opset versions (the stable opsets plus the
main opset) that are at least `v`, leaving every other registry key — in
particular every version strictly below `v` — untouched; and
`unregister_custom_op_symbolic` with the same `v` removes exactly those
registrations, likewise never touching versions below `v`. -/
theorem C10_register_unregister_fanout (stable_opsets : List Int) (main_opset : Int)
    (r : Registry) (symbolic_name : String) (fn : Nat) (opset_version : Int)
    (ns op_name : String)
    (hparse : get_ns_op_name_from_custom_op symbolic_name = Except.ok (ns, op_name)) :
    ∃ r1, register_custom_op_symbolic stable_opsets main_opset r symbolic_name fn
        opset_version = Except.ok r1 ∧
      (∀ w ∈ stable_opsets ++ [main_opset], w ≥ opset_version →
        r1 op_name ns w = some fn) ∧
      (∀ o d w, ¬ (o = op_name ∧ d = ns ∧ w ∈ stable_opsets ++ [main_opset] ∧
          w ≥ opset_version) → r1 o d w = r o d w) ∧
      (∀ w : Int, w < opset_version → r1 op_name ns w = r op_name ns w) ∧
      ∃ r2, unregister_custom_op_symbolic stable_opsets main_opset r1 symbolic_name
          opset_version = Except.ok r2 ∧
        (∀ w ∈ stable_opsets ++ [main_opset], w ≥ opset_version →
          r2 op_name ns w = none) ∧
        (∀ o d w, ¬ (o = op_name ∧ d = ns ∧ w ∈ stable_opsets ++ [main_opset] ∧
            w ≥ opset_version) → r2 o d w = r1 o d w) ∧
        (∀ w : Int, w < opset_version → r2 op_name ns w = r1 op_name ns w) := by
  have hreg : register_custom_op_symbolic stable_opsets main_opset r symbolic_name fn
      opset_version
      = Except.ok (registerLoop op_name fn ns opset_version r
          (stable_opsets ++ [main_opset])) := by
    unfold register_custom_op_symbolic
    rw [hparse]
  have hunreg : ∀ rr : Registry,
      unregister_custom_op_symbolic stable_opsets main_opset rr symbolic_name opset_version
        = Except.ok (unregisterLoop op_name ns opset_version rr
            (stable_opsets ++ [main_opset])) := by
    intro rr
    unfold unregister_custom_op_symbolic
    rw [hparse]
  refine ⟨_, hreg, ?_, ?_, ?_, _, hunreg _, ?_, ?_, ?_⟩
  · intro w hw hge
    rw [registerLoop_spec, if_pos ⟨rfl, rfl, hw, hge⟩]
  · intro o d w h
    rw [registerLoop_spec, if_neg h]
  · intro w hlt
    rw [registerLoop_spec, if_neg (fun h => absurd h.2.2.2 (by omega))]
  · intro w hw hge
    rw [unregisterLoop_spec, if_pos ⟨rfl, rfl, hw, hge⟩]
  · intro o d w h
    rw [unregisterLoop_spec, if_neg h]
  · intro w hlt
    rw [unregisterLoop_spec, if_neg (fun h => absurd h.2.2.2 (by omega))]

/-- Witness for C10: registering `custom::myop` at requested version 10 with
known opsets 9, 10 and main opset 11 registers at 10 and 11 but not at 9, and
unregistering removes both again. -/
theorem C10_register_unregister_fanout_witness :
    ∃ r1, register_custom_op_symbolic [9, 10] 11 (fun _ _ _ => none) "custom::myop" 7 10
        = Except.ok r1 ∧
      r1 "myop" "custom" 10 = some 7 ∧ r1 "myop" "custom" 11 = some 7 ∧
      r1 "myop" "custom" 9 = none ∧
      ∃ r2, unregister_custom_op_symbolic [9, 10] 11 r1 "custom::myop" 10
          = Except.ok r2 ∧ r2 "myop" "custom" 10 = none ∧ r2 "myop" "custom" 11 = none := by
  obtain ⟨r1, h1, h2, h3, h4, r2, h5, h6, h7, h8⟩ :=
    C10_register_unregister_fanout [9, 10] 11 (fun _ _ _ => none) "custom::myop" 7 10
      "custom" "myop" (by decide)
  exact ⟨r1, h1, h2 10 (by decide) (by decide), h2 11 (by decide) (by decide),
    (h4 9 (by decide)).trans rfl, r2, h5, h6 10 (by decide) (by decide),
    h6 11 (by decide) (by decide)⟩

/-- `buildValueDict` on all-integer, duplicate-free indices extends the
accumulator with the generated names, one per 1-based enumerate position. -/
theorem buildValueDict_nodup_spec (key : String) (xs : List Int) :
    ∀ (i : Nat) (acc : List (Int × String)) (ws : List Warn),
      (∀ x ∈ xs, acc.find? (fun p => p.1 == x) = none) →
      xs.Nodup →
      buildValueDict key (xs.map AxisElem.intIdx) i acc ws
        = Except.ok (acc ++ axesGenNames key xs i, ws) := by
  induction xs with
  | nil =>
    intro i acc ws _ _
    simp [buildValueDict, axesGenNames]
  | cons x rest ih =>
    intro i acc ws hacc hnd
    have hx : (acc.find? (fun p => p.1 == x)).isSome = false := by
      rw [hacc x (List.mem_cons_self x rest)]
      rfl
    rw [List.map_cons, buildValueDict, if_neg (by rw [hx]; exact Bool.false_ne_true)]
    have hrest : ∀ y ∈ rest,
        ((acc ++ [(x, key ++ "_dynamic_axes_" ++ toString (i + 1))]).find?
          (fun p => p.1 == y)) = none := by
      intro y hy
      rw [List.find?_append, hacc y (List.mem_cons.2 (Or.inr hy))]
      have hxy : x ≠ y := fun h => (List.nodup_cons.1 hnd).1 (h ▸ hy)
      have hb : (x == y) = false := beq_eq_false_iff_ne.2 hxy
      simp [List.find?, hb]
    rw [ih (i + 1) _ ws hrest (List.nodup_cons.1 hnd).2]
    rw [axesGenNames, List.append_assoc]
    rfl

/-- `buildValueDict` raises `ValueError` whenever the index list contains a
non-integer, whatever the accumulator state. -/
theorem buildValueDict_nonint_error (key : String) (xs : List AxisElem) :
    ∀ (i : Nat) (acc : List (Int × String)) (ws : List Warn),
      AxisElem.nonIntIdx ∈ xs →
      buildValueDict key xs i acc ws = Except.error PyExc.valueError := by
  induction xs with
  | nil =>
    intro i acc ws hmem
    exact absurd hmem (List.not_mem_nil _)
  | cons a rest ih =>
    intro i acc ws hmem
    cases a with
    | nonIntIdx => rw [buildValueDict]
    | intIdx x =>
      have hr : AxisElem.nonIntIdx ∈ rest := by
        rcases List.mem_cons.1 hmem with h | h
        · exact absurd h.symm (by simp)
        · exact h
      rw [buildValueDict]
      by_cases h : (acc.find? (fun p => p.1 == x)).isSome = true
      · rw [if_pos h]
        exact ih _ _ _ hr
      · rw [if_neg h]
        exact ih _ _ _ hr

/-- `buildValueDict` never raises on an all-integer index list, duplicates
included. -/
theorem buildValueDict_allint_ok (key : String) (xs : List AxisElem) :
    ∀ (i : Nat) (acc : List (Int × String)) (ws : List Warn),
      (∀ a ∈ xs, a ≠ AxisElem.nonIntIdx) →
      ∃ out, buildValueDict key xs i acc ws = Except.ok out := by
  induction xs with
  | nil =>
    intro i acc ws _
    exact ⟨(acc, ws), rfl⟩
  | cons a rest ih =>
    intro i acc ws hall
    cases a with
    | nonIntIdx => exact absurd rfl (hall _ (List.mem_cons_self _ _))
    | intIdx x =>
      have hrest : ∀ a ∈ rest, a ≠ AxisElem.nonIntIdx :=
        fun a ha => hall a (List.mem_cons.2 (Or.inr ha))
      rw [buildValueDict]
      by_cases h : (acc.find? (fun p => p.1 == x)).isSome = true
      · rw [if_pos h]
        exact ih _ _ _ hrest
      · rw [if_neg h]
        exact ih _ _ _ hrest

/-- Shape of `_validate_dynamic_axes` on a single list-form entry whose key is
a declared input name. -/
theorem validate_singleton_list (key : String) (xs : List AxisElem) :
    _validate_dynamic_axes [(key, AxisVal.axList xs)] none (some [key]) none
      = (match buildValueDict key xs 0 [] [] with
         | Except.error e => Except.error e
         | Except.ok (d, ws) =>
           Except.ok ([(key, AxisVal.axDict d)], [Warn.autoNames key] ++ ws)) := by
  unfold _validate_dynamic_axes
  rw [if_neg (by simp)]
  unfold processAxesEntries processAxesEntry
  simp only [orEmpty, Option.getD]
  rw [if_pos (by simp)]
  cases hb : buildValueDict key xs 0 [] [] with
  | error e => simp
  | ok out =>
    cases out with
    | mk d ws => simp [processAxesEntries]

/-- C7: a list-form dynamic-axes entry under a valid input name is replaced in
place by an index-to-name dictionary whose generated name at 1-based list
position `i` is `<key>_dynamic_axes_<i>` (so `{"x": [0, 2]}` becomes
`{"x": {0: "x_dynamic_axes_1", 2: "x_dynamic_axes_2"}}`); a non-integer index
raises `ValueError`, while a duplicate index only warns and is skipped. -/
theorem C7_validate_dynamic_axes (key : String) (xs : List Int) (ys : List AxisElem) :
    (_validate_dynamic_axes [("x", AxisVal.axList [AxisElem.intIdx 0, AxisElem.intIdx 2])]
        none (some ["x"]) none
      = Except.ok ([("x", AxisVal.axDict [(0, "x_dynamic_axes_1"), (2, "x_dynamic_axes_2")])],
          [Warn.autoNames "x"])) ∧
    (xs.Nodup →
      _validate_dynamic_axes [(key, AxisVal.axList (xs.map AxisElem.intIdx))] none
          (some [key]) none
        = Except.ok ([(key, AxisVal.axDict (axesGenNames key xs 0))], [Warn.autoNames key])) ∧
    (AxisElem.nonIntIdx ∈ ys →
      _validate_dynamic_axes [(key, AxisVal.axList ys)] none (some [key]) none
        = Except.error PyExc.valueError) ∧
    ((∀ a ∈ ys, a ≠ AxisElem.nonIntIdx) →
      isOkE (_validate_dynamic_axes [(key, AxisVal.axList ys)] none (some [key]) none)
        = true) ∧
    (_validate_dynamic_axes [("x", AxisVal.axList [AxisElem.intIdx 0, AxisElem.intIdx 0])]
        none (some ["x"]) none
      = Except.ok ([("x", AxisVal.axDict [(0, "x_dynamic_axes_1")])],
          [Warn.autoNames "x", Warn.dupIndex 0 "x"])) := by
  refine ⟨by decide, ?_, ?_, ?_, by decide⟩
  · intro hnd
    rw [validate_singleton_list,
      buildValueDict_nodup_spec key xs 0 [] [] (fun x _ => rfl) hnd]
    rfl
  · intro hmem
    rw [validate_singleton_list, buildValueDict_nonint_error key ys 0 [] [] hmem]
  · intro hall
    obtain ⟨out, hout⟩ := buildValueDict_allint_ok key ys 0 [] [] hall
    rw [validate_singleton_list, hout]
    rfl

/-- Witness for C7 at key `y` and indices `[1, 3]`. -/
theorem C7_validate_dynamic_axes_witness :
    _validate_dynamic_axes [("y", AxisVal.axList [AxisElem.intIdx 1, AxisElem.intIdx 3])]
        none (some ["y"]) none
      = Except.ok ([("y", AxisVal.axDict [(1, "y_dynamic_axes_1"), (3, "y_dynamic_axes_2")])],
          [Warn.autoNames "y"]) := by
  have h := (C7_validate_dynamic_axes "y" [1, 3] []).2.1 (by decide)
  simpa using h

namespace OutNames

@[simp]
theorem maybeSetName_nodes (g : OGraph) (v : Nat) (nm : String) :
    (maybeSetName g v nm).nodes = g.nodes := by
  unfold maybeSetName setDebugName
  split <;> rfl

@[simp]
theorem maybeSetName_inputIds (g : OGraph) (v : Nat) (nm : String) :
    (maybeSetName g v nm).inputIds = g.inputIds := by
  unfold maybeSetName setDebugName
  split <;> rfl

@[simp]
theorem maybeSetName_outputIds (g : OGraph) (v : Nat) (nm : String) :
    (maybeSetName g v nm).outputIds = g.outputIds := by
  unfold maybeSetName setDebugName
  split <;> rfl

@[simp]
theorem maybeSetName_fresh (g : OGraph) (v : Nat) (nm : String) :
    (maybeSetName g v nm).fresh = g.fresh := by
  unfold maybeSetName setDebugName
  split <;> rfl

theorem maybeSetName_names_self (g : OGraph) (v : Nat) (nm : String) :
    (maybeSetName g v nm).names v = nm := by
  unfold maybeSetName setDebugName
  by_cases h : g.names v ≠ nm
  · simp [h]
  · push_neg at h
    simp [h]

theorem maybeSetName_names_other (g : OGraph) (v x : Nat) (nm : String) (hx : x ≠ v) :
    (maybeSetName g v nm).names x = g.names x := by
  unfold maybeSetName setDebugName
  split
  · simp [hx]
  · rfl

theorem mem_idsList_inputs {g : OGraph} {w : Nat} (h : w ∈ g.inputIds) : w ∈ idsList g :=
  List.mem_append.2 (Or.inl (List.mem_append.2 (Or.inl h)))

theorem mem_idsList_outputs {g : OGraph} {w : Nat} (h : w ∈ g.outputIds) : w ∈ idsList g :=
  List.mem_append.2 (Or.inl (List.mem_append.2 (Or.inr h)))

theorem mem_idsList_node {g : OGraph} {nd : ONode} {w : Nat} (hnd : nd ∈ g.nodes)
    (hw : w ∈ nd.output :: nd.inputs) : w ∈ idsList g :=
  List.mem_append.2 (Or.inr (List.mem_flatMap.2 ⟨nd, hnd, hw⟩))

theorem lt_fresh_of_mem_outputIds {g : OGraph} (hwf : WF g) {v : Nat}
    (hv : v ∈ g.outputIds) : v < g.fresh :=
  hwf v (mem_idsList_outputs hv)

theorem wf_maybeSetName {g : OGraph} (hwf : WF g) (v : Nat) (nm : String) :
    WF (maybeSetName g v nm) := by
  intro w hw
  rw [maybeSetName_fresh]
  apply hwf
  simpa only [idsList, maybeSetName_nodes, maybeSetName_inputIds,
    maybeSetName_outputIds] using hw

theorem mem_insert_after_producer (l : List ONode) (v : Nat) (nd x : ONode) :
    x ∈ insert_after_producer l v nd ↔ x ∈ l ∨ x = nd := by
  unfold insert_after_producer
  cases h : l.findIdx? (fun m => m.output == v) with
  | none =>
    simp only [List.mem_cons]
    exact ⟨fun h2 => h2.symm.imp id (fun h3 => h3), fun h2 => h2.symm.imp (fun h3 => h3) id⟩
  | some j =>
    constructor
    · intro hx
      rcases List.mem_append.1 hx with h1 | h1
      · exact Or.inl (List.mem_of_mem_take h1)
      · rcases List.mem_cons.1 h1 with h2 | h2
        · exact Or.inr h2
        · exact Or.inl (List.mem_of_mem_drop h2)
    · intro hx
      rcases hx with h1 | h1
      · have h0 := List.take_append_drop (j + 1) l
        rw [← h0] at h1
        rcases List.mem_append.1 h1 with h2 | h2
        · exact List.mem_append.2 (Or.inl h2)
        · exact List.mem_append.2 (Or.inr (List.mem_cons.2 (Or.inr h2)))
      · exact List.mem_append.2 (Or.inr (List.mem_cons.2 (Or.inl h1)))

theorem take_set_self (l : List Nat) (i a : Nat) : (l.set i a).take i = l.take i := by
  induction l generalizing i with
  | nil => rfl
  | cons x xs ih =>
    cases i with
    | zero => rfl
    | succ n => simp [ih]

theorem take_succ_set (l : List Nat) (i a : Nat) (h : i < l.length) :
    (l.set i a).take (i + 1) = l.take i ++ [a] := by
  induction l generalizing i with
  | nil => simp at h
  | cons x xs ih =>
    cases i with
    | zero => rfl
    | succ n => simp [ih _ (by simpa using h)]

theorem drop_succ_set (l : List Nat) (i a : Nat) :
    (l.set i a).drop (i + 1) = l.drop (i + 1) := by
  induction l generalizing i with
  | nil => rfl
  | cons x xs ih =>
    cases i with
    | zero => rfl
    | succ n => simpa using ih n

theorem nodup_append_singleton {s : List Nat} {a : Nat} (h1 : s.Nodup) (h2 : a ∉ s) :
    (s ++ [a]).Nodup := by
  simp only [List.nodup_append, List.nodup_cons, List.not_mem_nil, not_false_iff,
    List.nodup_nil, and_true, true_and]
  exact ⟨h1, fun x hx hax => h2 ((List.mem_singleton.1 hax) ▸ hx)⟩

theorem wf_identity_step {g : OGraph} (hwf : WF g) {v : Nat} (hv : v ∈ g.outputIds)
    (i : Nat) :
    WF { g with
         nodes :=
           insert_after_producer g.nodes v
             { kind := "onnx::Identity", inputs := [v], output := g.fresh,
               ty := value_type g v },
         outputIds := g.outputIds.set i g.fresh,
         fresh := g.fresh + 1 } := by
  intro w hw
  show w < g.fresh + 1
  unfold idsList at hw
  rcases List.mem_append.1 hw with h | h
  · rcases List.mem_append.1 h with h1 | h1
    · exact Nat.lt_succ_of_lt (hwf w (mem_idsList_inputs h1))
    · rcases List.mem_or_eq_of_mem_set h1 with h2 | h2
      · exact Nat.lt_succ_of_lt (hwf w (mem_idsList_outputs h2))
      · omega
  · rcases List.mem_flatMap.1 h with ⟨nd, hnd, hmem⟩
    rcases (mem_insert_after_producer _ _ _ _).1 hnd with h2 | h2
    · exact Nat.lt_succ_of_lt (hwf w (mem_idsList_node h2 hmem))
    · subst h2
      rcases List.mem_cons.1 hmem with h3 | h3
      · have hw2 : w = g.fresh := h3
        omega
      · have hw2 : w = v := List.mem_singleton.1 h3
        exact Nat.lt_succ_of_lt (hw2 ▸ hwf v (mem_idsList_outputs hv))

theorem wf_foldl_maybeSetName (L : List (String × Nat)) :
    ∀ g : OGraph, WF g → WF (L.foldl (fun gg p => maybeSetName gg p.2 p.1) g) := by
  induction L with
  | nil => exact fun g h => h
  | cons p L ih => exact fun g h => ih _ (wf_maybeSetName h _ _)

theorem foldl_maybeSetName_fields (L : List (String × Nat)) :
    ∀ g : OGraph,
      (L.foldl (fun gg p => maybeSetName gg p.2 p.1) g).nodes = g.nodes ∧
      (L.foldl (fun gg p => maybeSetName gg p.2 p.1) g).inputIds = g.inputIds ∧
      (L.foldl (fun gg p => maybeSetName gg p.2 p.1) g).outputIds = g.outputIds ∧
      (L.foldl (fun gg p => maybeSetName gg p.2 p.1) g).fresh = g.fresh := by
  induction L with
  | nil => exact fun g => ⟨rfl, rfl, rfl, rfl⟩
  | cons p L ih =>
    intro g
    obtain ⟨h1, h2, h3, h4⟩ := ih (maybeSetName g p.2 p.1)
    exact ⟨h1.trans (maybeSetName_nodes _ _ _), h2.trans (maybeSetName_inputIds _ _ _),
      h3.trans (maybeSetName_outputIds _ _ _), h4.trans (maybeSetName_fresh _ _ _)⟩

theorem set_input_names_outputIds (g : OGraph) (nl : List String) :
    (set_input_names g nl).outputIds = g.outputIds :=
  (foldl_maybeSetName_fields (nl.zip g.inputIds) g).2.2.1

theorem set_input_names_nodes (g : OGraph) (nl : List String) :
    (set_input_names g nl).nodes = g.nodes :=
  (foldl_maybeSetName_fields (nl.zip g.inputIds) g).1

theorem wf_set_input_names {g : OGraph} (hwf : WF g) (nl : List String) :
    WF (set_input_names g nl) :=
  wf_foldl_maybeSetName (nl.zip g.inputIds) g hwf

theorem eq_cons_of_take_one {l : List Nat} {a : Nat} (h : l.take 1 = [a]) :
    l = a :: l.drop 1 := by
  cases l with
  | nil => simp at h
  | cons x t =>
    simp only [List.take_succ_cons, List.take_zero] at h
    rw [List.cons.injEq] at h
    rw [h.1]
    rfl

theorem drop_eq_cons_of_take {l : List Nat} {i : Nat} {s : List Nat} {a : Nat}
    (h1 : l.take (i + 1) = s ++ [a]) (h0 : l.take i = s) :
    l.drop i = a :: l.drop (i + 1) := by
  have h2 : l.take (i + 1) = l.take i ++ (l.drop i).take 1 := List.take_add l i 1
  rw [h0, h1] at h2
  have h3 : (l.drop i).take 1 = [a] := (List.append_cancel_left h2).symm
  have h4 := eq_cons_of_take_one h3
  rw [h4]
  rw [List.drop_drop 1 i l]

/-- Invariant of the output-naming loop of `_set_input_and_output_names`: the
outputs already processed keep their ids and names; the next `nl.length`
outputs end with exactly the names `nl`, pairwise distinct ids, each either an
original output value or the output of an inserted `onnx::Identity` node;
nodes are only added, and well-formedness is preserved. -/
theorem set_output_names_loop_spec (nl : List String) :
    ∀ (g : OGraph) (i : Nat) (g' : OGraph),
      WF g →
      (g.outputIds.take i).Nodup →
      i + nl.length ≤ g.outputIds.length →
      g' = set_output_names_loop g (g.outputIds.take i) i (nl.zip (g.outputIds.drop i)) →
      g'.outputIds.length = g.outputIds.length ∧
      g'.outputIds.take i = g.outputIds.take i ∧
      (∀ w ∈ g.outputIds.take i, g'.names w = g.names w) ∧
      ((g'.outputIds.drop i).take nl.length).map g'.names = nl ∧
      (g'.outputIds.take (i + nl.length)).Nodup ∧
      (∀ w ∈ (g'.outputIds.drop i).take nl.length,
        w ∈ g.outputIds.drop i ∨
          ∃ nd ∈ g'.nodes, nd.kind = "onnx::Identity" ∧ nd.output = w) ∧
      (∀ nd ∈ g.nodes, nd ∈ g'.nodes) ∧
      WF g' ∧ g.fresh ≤ g'.fresh := by
  induction nl with
  | nil =>
    intro g i g' hwf hnd hlen hg
    subst hg
    exact ⟨rfl, rfl, fun w _ => rfl, rfl, hnd,
      fun w hw => absurd hw (List.not_mem_nil w), fun nd h => h, hwf, le_refl _⟩
  | cons nm rest ih =>
    intro g i g' hwf hnd hlen hg
    have hlenc : i + rest.length + 1 ≤ g.outputIds.length := by
      simp only [List.length_cons] at hlen
      omega
    have hi : i < g.outputIds.length := by omega
    obtain ⟨v, hdropg⟩ : ∃ v, g.outputIds.drop i = v :: g.outputIds.drop (i + 1) :=
      ⟨g.outputIds[i], List.drop_eq_getElem_cons hi⟩
    have hvmem : v ∈ g.outputIds :=
      List.mem_of_mem_drop (n := i) (by rw [hdropg]; exact List.mem_cons_self _ _)
    have htakesucc : g.outputIds.take (i + 1) = g.outputIds.take i ++ [v] := by
      rw [List.take_add g.outputIds i 1, hdropg]
      rfl
    rw [hdropg, List.zip_cons_cons] at hg
    by_cases hvseen : v ∈ g.outputIds.take i
    · -- the output value was already processed: an identity node is inserted
      simp only [set_output_names_loop, if_pos hvseen] at hg
      set g2 : OGraph := maybeSetName
        { g with
          nodes :=
            insert_after_producer g.nodes v
              { kind := "onnx::Identity", inputs := [v], output := g.fresh,
                ty := value_type g v },
          outputIds := g.outputIds.set i g.fresh,
          fresh := g.fresh + 1 } g.fresh nm with hg2def
      have hg2out : g2.outputIds = g.outputIds.set i g.fresh :=
        maybeSetName_outputIds _ _ _
      have hg2nodes : g2.nodes = insert_after_producer g.nodes v
          { kind := "onnx::Identity", inputs := [v], output := g.fresh,
            ty := value_type g v } :=
        maybeSetName_nodes _ _ _
      have hg2fresh : g2.fresh = g.fresh + 1 := maybeSetName_fresh _ _ _
      have hg2nself : g2.names g.fresh = nm := maybeSetName_names_self _ _ _
      have hg2nother : ∀ x, x ≠ g.fresh → g2.names x = g.names x := fun x hx =>
        maybeSetName_names_other _ _ x _ hx
      have hseen : g.outputIds.take i ++ [g.fresh] = g2.outputIds.take (i + 1) := by
        rw [hg2out, take_succ_set _ _ _ hi]
      have hdroparg : g.outputIds.drop (i + 1) = g2.outputIds.drop (i + 1) := by
        rw [hg2out, drop_succ_set]
      rw [hseen, hdroparg] at hg
      have hfreshnot : g.fresh ∉ g.outputIds.take i := fun hmem =>
        absurd (lt_fresh_of_mem_outputIds hwf (List.mem_of_mem_take hmem))
          (lt_irrefl _)
      have hwf2 : WF g2 := wf_maybeSetName (wf_identity_step hwf hvmem i) _ _
      have hnd2 : (g2.outputIds.take (i + 1)).Nodup := by
        rw [← hseen]
        exact nodup_append_singleton hnd hfreshnot
      have hlen2 : (i + 1) + rest.length ≤ g2.outputIds.length := by
        rw [hg2out, List.length_set]
        omega
      obtain ⟨ih1, ih2, ih3, ih4, ih5, ih6, ih7, ih8, ih9⟩ :=
        ih g2 (i + 1) g' hwf2 hnd2 hlen2 hg
      have c1 : g'.outputIds.length = g.outputIds.length := by
        rw [ih1, hg2out, List.length_set]
      have c2 : g'.outputIds.take i = g.outputIds.take i := by
        have h1 : g'.outputIds.take i = (g'.outputIds.take (i + 1)).take i := by
          rw [List.take_take, min_eq_left (Nat.le_succ i)]
        rw [h1, ih2, List.take_take, min_eq_left (Nat.le_succ i), hg2out, take_set_self]
      have htkpre : ∀ w ∈ g.outputIds.take i, w ∈ g2.outputIds.take (i + 1) := by
        intro w hw
        rw [← hseen]
        exact List.mem_append.2 (Or.inl hw)
      have c3 : ∀ w ∈ g.outputIds.take i, g'.names w = g.names w := by
        intro w hw
        have hwlt : w < g.fresh :=
          lt_fresh_of_mem_outputIds hwf (List.mem_of_mem_take hw)
        rw [ih3 w (htkpre w hw), hg2nother w (by omega)]
      have htk1 : g'.outputIds.take (i + 1) = g.outputIds.take i ++ [g.fresh] :=
        ih2.trans hseen.symm
      have hvg' : g'.outputIds.drop i = g.fresh :: g'.outputIds.drop (i + 1) :=
        drop_eq_cons_of_take htk1 c2
      have hfmem : g.fresh ∈ g2.outputIds.take (i + 1) := by
        rw [← hseen]
        exact List.mem_append.2 (Or.inr (List.mem_singleton.2 rfl))
      have c4 : ((g'.outputIds.drop i).take (nm :: rest).length).map g'.names
          = nm :: rest := by
        simp only [List.length_cons]
        rw [hvg', List.take_succ_cons, List.map_cons, ih3 _ hfmem, hg2nself, ih4]
      have c5 : (g'.outputIds.take (i + (nm :: rest).length)).Nodup := by
        simp only [List.length_cons]
        have harith : i + (rest.length + 1) = (i + 1) + rest.length := by omega
        rw [harith]
        exact ih5
      have hidnin : ∃ nd ∈ g'.nodes, nd.kind = "onnx::Identity" ∧ nd.output = g.fresh := by
        refine ⟨{ kind := "onnx::Identity", inputs := [v], output := g.fresh, ty := value_type g v }, ?_, rfl, rfl⟩
        apply ih7
        rw [hg2nodes]
        exact (mem_insert_after_producer _ _ _ _).2 (Or.inr rfl)
      have c6 : ∀ w ∈ (g'.outputIds.drop i).take (nm :: rest).length,
          w ∈ g.outputIds.drop i ∨
            ∃ nd ∈ g'.nodes, nd.kind = "onnx::Identity" ∧ nd.output = w := by
        simp only [List.length_cons]
        intro w hw
        rw [hvg', List.take_succ_cons] at hw
        rcases List.mem_cons.1 hw with h | h
        · subst h
          exact Or.inr hidnin
        · rcases ih6 w h with h2 | h2
          · rw [← hdroparg] at h2
            exact Or.inl (by rw [hdropg]; exact List.mem_cons.2 (Or.inr h2))
          · exact Or.inr h2
      have c7 : ∀ nd ∈ g.nodes, nd ∈ g'.nodes := by
        intro nd hnd3
        apply ih7
        rw [hg2nodes]
        exact (mem_insert_after_producer _ _ _ _).2 (Or.inl hnd3)
      have c9 : g.fresh ≤ g'.fresh := by
        have := ih9
        rw [hg2fresh] at this
        omega
      exact ⟨c1, c2, c3, c4, c5, c6, c7, ih8, c9⟩
    · -- fresh output value: renamed in place
      simp only [set_output_names_loop, if_neg hvseen] at hg
      set g2 : OGraph := maybeSetName g v nm with hg2def
      have hg2out : g2.outputIds = g.outputIds := maybeSetName_outputIds _ _ _
      have hg2nodes : g2.nodes = g.nodes := maybeSetName_nodes _ _ _
      have hg2fresh : g2.fresh = g.fresh := maybeSetName_fresh _ _ _
      have hg2nself : g2.names v = nm := maybeSetName_names_self _ _ _
      have hg2nother : ∀ x, x ≠ v → g2.names x = g.names x := fun x hx =>
        maybeSetName_names_other _ _ x _ hx
      have hseen : g.outputIds.take i ++ [v] = g2.outputIds.take (i + 1) := by
        rw [hg2out, htakesucc]
      have hdroparg : g.outputIds.drop (i + 1) = g2.outputIds.drop (i + 1) := by
        rw [hg2out]
      rw [hseen, hdroparg] at hg
      have hwf2 : WF g2 := wf_maybeSetName hwf v nm
      have hnd2 : (g2.outputIds.take (i + 1)).Nodup := by
        rw [← hseen]
        exact nodup_append_singleton hnd hvseen
      have hlen2 : (i + 1) + rest.length ≤ g2.outputIds.length := by
        rw [hg2out]
        omega
      obtain ⟨ih1, ih2, ih3, ih4, ih5, ih6, ih7, ih8, ih9⟩ :=
        ih g2 (i + 1) g' hwf2 hnd2 hlen2 hg
      have c1 : g'.outputIds.length = g.outputIds.length := by
        rw [ih1, hg2out]
      have c2 : g'.outputIds.take i = g.outputIds.take i := by
        have h1 : g'.outputIds.take i = (g'.outputIds.take (i + 1)).take i := by
          rw [List.take_take, min_eq_left (Nat.le_succ i)]
        rw [h1, ih2, List.take_take, min_eq_left (Nat.le_succ i), hg2out]
      have htkpre : ∀ w ∈ g.outputIds.take i, w ∈ g2.outputIds.take (i + 1) := by
        intro w hw
        rw [← hseen]
        exact List.mem_append.2 (Or.inl hw)
      have c3 : ∀ w ∈ g.outputIds.take i, g'.names w = g.names w := by
        intro w hw
        have hwv : w ≠ v := fun heq => hvseen (heq ▸ hw)
        rw [ih3 w (htkpre w hw), hg2nother w hwv]
      have htk1 : g'.outputIds.take (i + 1) = g.outputIds.take i ++ [v] :=
        ih2.trans hseen.symm
      have hvg' : g'.outputIds.drop i = v :: g'.outputIds.drop (i + 1) :=
        drop_eq_cons_of_take htk1 c2
      have hfmem : v ∈ g2.outputIds.take (i + 1) := by
        rw [← hseen]
        exact List.mem_append.2 (Or.inr (List.mem_singleton.2 rfl))
      have c4 : ((g'.outputIds.drop i).take (nm :: rest).length).map g'.names
          = nm :: rest := by
        simp only [List.length_cons]
        rw [hvg', List.take_succ_cons, List.map_cons, ih3 _ hfmem, hg2nself, ih4]
      have c5 : (g'.outputIds.take (i + (nm :: rest).length)).Nodup := by
        simp only [List.length_cons]
        have harith : i + (rest.length + 1) = (i + 1) + rest.length := by omega
        rw [harith]
        exact ih5
      have c6 : ∀ w ∈ (g'.outputIds.drop i).take (nm :: rest).length,
          w ∈ g.outputIds.drop i ∨
            ∃ nd ∈ g'.nodes, nd.kind = "onnx::Identity" ∧ nd.output = w := by
        simp only [List.length_cons]
        intro w hw
        rw [hvg', List.take_succ_cons] at hw
        rcases List.mem_cons.1 hw with h | h
        · subst h
          exact Or.inl (by rw [hdropg]; exact List.mem_cons_self _ _)
        · rcases ih6 w h with h2 | h2
          · rw [← hdroparg] at h2
            exact Or.inl (by rw [hdropg]; exact List.mem_cons.2 (Or.inr h2))
          · exact Or.inr h2
      have c7 : ∀ nd ∈ g.nodes, nd ∈ g'.nodes := by
        intro nd hnd3
        apply ih7
        rw [hg2nodes]
        exact hnd3
      have c9 : g.fresh ≤ g'.fresh := by
        have := ih9
        rw [hg2fresh] at this
        omega
      exact ⟨c1, c2, c3, c4, c5, c6, c7, ih8, c9⟩

end OutNames

/-- C8: when N output names are supplied (N not exceeding the number of graph
outputs) to a well-formed graph, `_set_input_and_output_names` succeeds and
afterwards the first N output debug names are exactly the N requested names in
order; two requested names targeting the same output value are disambiguated
by an inserted `onnx::Identity` passthrough node, so the first N outputs are
pairwise distinct values, each either an original output value or the output
of an inserted identity node — never a silent overwrite. -/
theorem C8_output_names (g : OutNames.OGraph) (input_names : Option (List String))
    (outNames : List String)
    (hwf : OutNames.WF g) (hin : OutNames.inputPhaseOk g input_names)
    (hlen : outNames.length ≤ g.outputIds.length) :
    ∃ g', OutNames._set_input_and_output_names g input_names (some outNames)
        = Except.ok g' ∧
      (g'.outputIds.take outNames.length).map g'.names = outNames ∧
      (g'.outputIds.take outNames.length).Nodup ∧
      (∀ w ∈ g'.outputIds.take outNames.length,
        w ∈ g.outputIds ∨
          ∃ nd ∈ g'.nodes, nd.kind = "onnx::Identity" ∧ nd.output = w) := by
  obtain ⟨g1, hphase, h1out, h1nodes, h1wf⟩ :
      ∃ g1, OutNames._set_input_and_output_names g input_names (some outNames)
          = OutNames.set_output_names g1 (some outNames) ∧
        g1.outputIds = g.outputIds ∧ g1.nodes = g.nodes ∧ OutNames.WF g1 := by
    cases input_names with
    | none => exact ⟨g, rfl, rfl, rfl, hwf⟩
    | some nl =>
      have hle : ¬ (nl.length > g.inputIds.length) := not_lt.2 hin
      refine ⟨OutNames.set_input_names g nl, ?_,
        OutNames.set_input_names_outputIds g nl,
        OutNames.set_input_names_nodes g nl,
        OutNames.wf_set_input_names hwf nl⟩
      unfold OutNames._set_input_and_output_names
      dsimp only
      rw [if_neg hle]
  rw [hphase]
  unfold OutNames.set_output_names
  dsimp only
  rw [if_neg (not_lt.2 (by rw [h1out]; exact hlen))]
  obtain ⟨s1, s2, s3, s4, s5, s6, s7, s8, s9⟩ :=
    OutNames.set_output_names_loop_spec outNames g1 0
      (OutNames.set_output_names_loop g1 [] 0 (outNames.zip g1.outputIds)) h1wf
      (by simp) (by rw [h1out]; omega) rfl
  refine ⟨_, rfl, ?_, ?_, ?_⟩
  · have h := s4
    rw [List.drop_zero] at h
    exact h
  · have h := s5
    rw [Nat.zero_add] at h
    exact h
  · intro w hw
    have hw0 : w ∈ ((OutNames.set_output_names_loop g1 [] 0
        (outNames.zip g1.outputIds)).outputIds.drop 0).take outNames.length := by
      rw [List.drop_zero]
      exact hw
    rcases s6 w hw0 with h | h
    · rw [List.drop_zero, h1out] at h
      exact Or.inl h
    · exact Or.inr h

/-- Witness for C8: a graph with the same value listed twice as output, named
`["a", "b"]`; the result has distinct first outputs named `a` and `b`. -/
theorem C8_output_names_witness :
    ∃ g', OutNames._set_input_and_output_names
        { nodes := [{ kind := "aten::relu", inputs := [0], output := 1, ty := 0 }],
          inputIds := [0], outputIds := [1, 1], names := fun _ => "", fresh := 2 }
        none (some ["a", "b"]) = Except.ok g' ∧
      (g'.outputIds.take 2).map g'.names = ["a", "b"] ∧
      (g'.outputIds.take 2).Nodup ∧
      (∀ w ∈ g'.outputIds.take 2,
        w ∈ [1, 1] ∨
          ∃ nd ∈ g'.nodes, nd.kind = "onnx::Identity" ∧ nd.output = w) :=
  C8_output_names
    { nodes := [{ kind := "aten::relu", inputs := [0], output := 1, ty := 0 }],
      inputIds := [0], outputIds := [1, 1], names := fun _ => "", fresh := 2 }
    none ["a", "b"] (by unfold OutNames.WF; decide) (by trivial) (by decide)

end TorchOnnxUtils
